import Mathlib

/-!
# etcdtool `import` command

A shallow embedding of `command/import_command.go`.  The store client, the
document loader, the tree mapper and standard input are external collaborators:
their answers are inputs of the model, and every call the command issues is
recorded as an `Event`, in program order.

A Go string is a sequence of bytes.  Here it is a `String` that holds one
character for each byte.
-/

namespace Etcdtool

/-! ## Go values -/

/-- A Go `error` value.  `clientError Code text` is a value of type
`client.Error` (the only type the assertion `err.(client.Error)` of line 39
accepts) with its `Code` field; `other text` is an error of any other type.
`text` is what the method `Error()` returns. -/
inductive GoError where
  | clientError (Code : Int) (text : String)
  | other (text : String)
  deriving DecidableEq, Repr

/-- The method `err.Error()`. -/
def GoError.Error : GoError → String
  | .clientError _ text => text
  | .other text => text

/-- The type `iodatafmt.DataFmt`: the formats named at line 26. -/
inductive DataFmt where
  | YAML
  | TOML
  | JSON
  deriving DecidableEq, Repr

/-- The context handed to a store operation: the one returned by
`contextWithCommandTimeout(c)` (lines 35, 48) or `context.TODO()`
(lines 145, 157), which carries no deadline. -/
inductive Ctx where
  | commandTimeout
  | TODO
  deriving DecidableEq, Repr

/-- The fields of `client.GetOptions` (`Sorted` is the Go field `Sort`). -/
structure GetOptions where
  Recursive : Bool
  Sorted : Bool
  Quorum : Bool
  deriving DecidableEq, Repr

/-- The fields of `client.SetOptions` the command can set apart from the zero value. -/
structure SetOptions where
  Dir : Bool
  deriving DecidableEq, Repr

/-- The fields of `client.DeleteOptions` the command can set apart from the zero value. -/
structure DeleteOptions where
  Recursive : Bool
  deriving DecidableEq, Repr

/-- The part of `client.Node` the command reads. -/
structure Node where
  Key : String
  Dir : Bool
  Value : String
  deriving DecidableEq, Repr

/-- The part of `client.Response` the command reads. -/
structure Response where
  Node : Node
  deriving DecidableEq, Repr

/-- The result of a store call, `(resp, err)`: `ok resp` stands for `err == nil`. -/
inductive Reply where
  | ok (resp : Response)
  | err (e : GoError)
  deriving DecidableEq, Repr

/-! ## Observable events -/

/-- What one run does to the outside world, in program order.  `δ` is the type of
loaded documents (the `map[string]interface{}` returned by `iodatafmt.Load`). -/
inductive Event (δ : Type) where
  | Get (ctx : Ctx) (key : String) (opts : GetOptions)
  | Set (ctx : Ctx) (key : String) (value : String) (opts : SetOptions)
  | Delete (ctx : Ctx) (key : String) (opts : DeleteOptions)
  | Create (dir : String) (m : δ)
  | Printf (text : String)
  deriving DecidableEq, Repr

/-- A store mutation: a `Set`, a `Delete` or a call of the mapper `etcdmap.Create`. -/
def Event.isMutation {δ : Type} : Event δ → Bool
  | .Set _ _ _ _ => true
  | .Delete _ _ _ => true
  | .Create _ _ => true
  | _ => false

/-- A store query. -/
def Event.isGet {δ : Type} : Event δ → Bool
  | .Get _ _ _ => true
  | _ => false

/-- A line written to standard output. -/
def Event.isPrintf {δ : Type} : Event δ → Bool
  | .Printf _ => true
  | _ => false

/-- A `Set` or `Delete` issued by the command itself (not by the mapper). -/
def Event.isSetOrDelete {δ : Type} : Event δ → Bool
  | .Set _ _ _ _ => true
  | .Delete _ _ _ => true
  | _ => false

/-- How the process ends: the function returns, `os.Exit(code)` is called, or
`log.Fatal` prints `msg` and exits with status 1. -/
inductive Outcome where
  | returned
  | exit (code : Nat)
  | fatal (msg : String)
  deriving DecidableEq, Repr

/-- The exit status of the process. -/
def Outcome.status : Outcome → Nat
  | .returned => 0
  | .exit code => code
  | .fatal _ => 1

/-! ## Collaborators -/

/-- The interface `client.KeysAPI` over a store whose state has type `σ`.  Each
call returns its reply and the next state; the state may hold anything, other
clients of the store included. -/
structure KeysAPI (σ : Type) where
  Get : Ctx → String → GetOptions → σ → Reply × σ
  Set : Ctx → String → String → SetOptions → σ → Reply × σ
  Delete : Ctx → String → DeleteOptions → σ → Reply × σ

/-- Standard input: the bytes `input` that can be read from `os.Stdin`, after which
every read returns the error `err` (`io.EOF` at the end of a file or pipe). -/
structure Stdin where
  input : String
  err : GoError
  deriving DecidableEq, Repr

/-- The collaborators of `importFunc`: the store client `ki`, `iodatafmt.Load`
and `etcdmap.Create(ki, dir, reflect.ValueOf(m))`, which returns `nil` or an
error. -/
structure Env (σ δ : Type) where
  ki : KeysAPI σ
  Load : String → DataFmt → Except GoError δ
  Create : String → δ → σ → Option GoError × σ

/-- A value computed together with the events issued and the store left behind. -/
structure Ret (σ δ α : Type) where
  val : α
  events : List (Event δ)
  store : σ

/-! ## Strings -/

/-- Lower-casing of one rune by `strings.ToLower`, on the ASCII range.  A rune outside
that range never maps to one of the letters of `yes` and `no`, so the
`switch` of line 70 sees the same cases. -/
def toLowerRune (c : Char) : Char :=
  if 'A'.toNat ≤ c.toNat ∧ c.toNat ≤ 'Z'.toNat then Char.ofNat (c.toNat + 32) else c

/-- The function `strings.ToLower`. -/
def ToLower (s : String) : String :=
  String.mk (s.data.map toLowerRune)

/-- The function `strings.TrimRight(s, cutset)`: `s` without its trailing runes that
occur in `cutset`. -/
def TrimRight (s cutset : String) : String :=
  String.mk (s.data.rdropWhile fun c => cutset.data.contains c)

/-! ## `bufio.Reader.ReadLine` -/

/-- How `bufio.Reader.ReadSlice` stops: at the delimiter, on a full buffer
(`ErrBufferFull`), or on the pending read error with the delimiter not found. -/
inductive SliceEnd where
  | delim
  | bufferFull
  | pending
  deriving DecidableEq, Repr

/-- The method `ReadSlice('\n')` of a reader whose buffer holds `n` bytes, on the
unread input: the slice returned, how the search stopped, and the input left. -/
def ReadSlice : Nat → List Char → List Char × SliceEnd × List Char
  | 0, input => ([], .bufferFull, input)
  | _ + 1, [] => ([], .pending, [])
  | n + 1, c :: cs =>
    if c = '\n' then ([c], .delim, cs)
    else
      let r := ReadSlice n cs
      (c :: r.1, r.2.1, r.2.2)

/-- The buffer size of `bufio.NewReader` (line 61). -/
def defaultBufSize : Nat := 4096

/-- The method `ReadLine` on the unread input: `none` stands for a non-nil `err`, else
the result is `(line, isPrefix, unread input)`.  A line that does not fit the
buffer comes back in pieces, with `isPrefix` set; a carriage return at the end
of such a piece is put back; the end of line (`\n` or `\r\n`) is removed. -/
def ReadLine (input : List Char) : Option (List Char × Bool × List Char) :=
  let r := ReadSlice defaultBufSize input
  let line := r.1
  match r.2.1 with
  | .bufferFull =>
    if line.getLast? = some '\r' then some (line.dropLast, true, '\r' :: r.2.2)
    else some (line, true, r.2.2)
  | _ =>
    if line = [] then none
    else if line.getLast? = some '\n' then
      if line.dropLast.getLast? = some '\r' then some (line.dropLast.dropLast, false, r.2.2)
      else some (line.dropLast, false, r.2.2)
    else some (line, false, r.2.2)

/-- What the successive calls `stdin.ReadLine()` of line 65 return as `inp` until the
first error, `isPrefix` being dropped there; `fuel` bounds the number of calls. -/
def readLines : Nat → List Char → List String
  | 0, _ => []
  | fuel + 1, input =>
    match ReadLine input with
    | none => []
    | some (line, _, unread) => String.mk line :: readLines fuel unread

/-- The values of `inp` that the loop of `askYesNo` can see on this standard input.
Every call of `ReadLine` that succeeds consumes a byte, so one call more than
there are bytes is enough. -/
def Stdin.lines (stdin : Stdin) : List String :=
  readLines (stdin.input.data.length + 1) stdin.input.data

/-! ## `askYesNo` (lines 60-79) -/

/-- The result of `askYesNo`: the answer, or the message of the `log.Fatal` of line
67; and the texts printed. -/
structure Asked where
  answer : Except String Bool
  out : List String

/-- The prompt printed at line 64. -/
def promptText (msg : String) : String :=
  msg ++ " [yes/no]? "

/-- The rejection printed at line 76. -/
def incorrectText (inp : String) : String :=
  "Incorrect input: " ++ inp ++ "\n "

/-- The loop of `askYesNo`, one iteration for each result `inp` of `ReadLine`; when
they are used up `ReadLine` returns the error `readErr`. -/
def askYesNo (msg : String) (readErr : GoError) : List String → Asked
  | [] => ⟨.error readErr.Error, [promptText msg]⟩
  | inp :: more =>
    if ToLower inp = "yes" then ⟨.ok true, [promptText msg]⟩
    else if ToLower inp = "no" then ⟨.ok false, [promptText msg]⟩
    else
      let r := askYesNo msg readErr more
      ⟨r.answer, promptText msg :: incorrectText inp :: r.out⟩

/-- A line the `switch` of line 70 accepts. -/
def isAnswer (inp : String) : Bool :=
  decide (ToLower inp = "yes") || decide (ToLower inp = "no")

/-! ## Classification of the destination (lines 34-58) -/

/-- The options `&client.GetOptions{}` of lines 36 and 49. -/
def getOptions : GetOptions :=
  ⟨false, false, false⟩

/-- The function `dirExists` (lines 34-45): `ok b` stands for `(b, nil)`, `error err` for
`(false, err)`. -/
def dirExists {σ δ : Type} (dir : String) (ki : KeysAPI σ) (s : σ) :
    Ret σ δ (Except GoError Bool) :=
  let ctx := Ctx.commandTimeout
  let r := ki.Get ctx dir getOptions s
  let val : Except GoError Bool :=
    match r.1 with
    | .err err =>
      match err with
      | .clientError Code text =>
        if Code = 100 then .ok false
        else .error (.clientError Code text)
      | .other text => .error (.other text)
    | .ok _ => .ok true
  ⟨val, [Event.Get ctx dir getOptions], r.2⟩

/-- The function `isDir` (lines 47-58): it returns `false` for a directory node and
`true` for any other node. -/
def isDir {σ δ : Type} (dir : String) (ki : KeysAPI σ) (s : σ) :
    Ret σ δ (Except GoError Bool) :=
  let ctx := Ctx.commandTimeout
  let r := ki.Get ctx dir getOptions s
  let val : Except GoError Bool :=
    match r.1 with
    | .err err => .error err
    | .ok resp =>
      if resp.Node.Dir then .ok false
      else .ok true
  ⟨val, [Event.Get ctx dir getOptions], r.2⟩

/-! ## `importFunc` (lines 114-166) -/

/-- The message built by `fmt.Sprintf` at lines 140 and 150, where `dir` is the
string parameter again. -/
def overwriteMsg (dir : String) : String :=
  "Do you want to overwrite data in directory: " ++ dir

/-- The message of line 128: there `dir` is the boolean declared at line 122, which
the verb `%s` renders as `%!s(bool=true)`. -/
def notADirectoryMsg : String :=
  "Specified dir is not a directory: %!s(bool=true)"

/-- The message of line 118. -/
def doesNotExistMsg (dir : String) : String :=
  "Specified dir doesn\x27t exist: " ++ dir

/-- The call of `askYesNo` at lines 140 and 150 with what follows a refusal:
`none` when the run goes on, else how the process ends. -/
def confirm {σ δ : Type} (dir : String) (stdin : Stdin) (s : σ) :
    Ret σ δ (Option Outcome) :=
  let a := askYesNo (overwriteMsg dir) stdin.err stdin.lines
  let o : Option Outcome :=
    match a.answer with
    | .error msg => some (.fatal msg)
    | .ok false => some (.exit 1)
    | .ok true => none
  ⟨o, a.out.map Event.Printf, s⟩

/-- The options `&client.DeleteOptions{Recursive: true}` of line 145. -/
def deleteOptions : DeleteOptions :=
  ⟨true⟩

/-- The options `&client.SetOptions{Dir: true}` of line 157. -/
def setOptions : SetOptions :=
  ⟨true⟩

/-- Lines 138-160: the confirmation and the `Delete` or `Set` that precede the
mapper.  The value is `none` when the run reaches line 162, else how the process
ends. -/
def prepare {σ δ : Type} (env : Env σ δ) (dir : String) (pathExists replace yes : Bool)
    (stdin : Stdin) (s : σ) : Ret σ δ (Option Outcome) :=
  if pathExists then
    if replace then
      let a : Ret σ δ (Option Outcome) := confirm dir stdin s
      match a.val with
      | some o => ⟨some o, a.events, a.store⟩
      | none =>
        -- Delete dir.
        let d := env.ki.Delete Ctx.TODO dir deleteOptions a.store
        let o : Option Outcome :=
          match d.1 with
          | .err err => some (.fatal err.Error)
          | .ok _ => none
        ⟨o, a.events ++ [Event.Delete Ctx.TODO dir deleteOptions], d.2⟩
    else
      if !yes then confirm dir stdin s
      else ⟨none, [], s⟩
  else
    -- Create dir.
    let r := env.ki.Set Ctx.TODO dir "" setOptions s
    let o : Option Outcome :=
      match r.1 with
      | .err err => some (.fatal err.Error)
      | .ok _ => none
    ⟨o, [Event.Set Ctx.TODO dir "" setOptions], r.2⟩

/-- Lines 121-130: the second query, made only when the path exists.  The value is
the message of the `log.Fatal` reached, if any. -/
def checkIsDir {σ δ : Type} (env : Env σ δ) (dir : String) (pathExists : Bool) (s : σ) :
    Ret σ δ (Option String) :=
  if pathExists then
    let q : Ret σ δ (Except GoError Bool) := isDir dir env.ki s
    let o : Option String :=
      match q.val with
      | .error err => some err.Error
      | .ok notDir => if notDir then some notADirectoryMsg else none
    ⟨o, q.events, q.store⟩
  else ⟨none, [], s⟩

/-- The function `importFunc` (lines 114-166). -/
def importFunc {σ δ : Type} (env : Env σ δ) (dir file : String) (f : DataFmt)
    (replace yes : Bool) (stdin : Stdin) (s : σ) : Ret σ δ Outcome :=
  -- Check if dir exists and is a directory.
  let e : Ret σ δ (Except GoError Bool) := dirExists dir env.ki s
  match e.val with
  | .error _ => ⟨.fatal (doesNotExistMsg dir), e.events, e.store⟩
  | .ok pathExists =>
    let k := checkIsDir env dir pathExists e.store
    match k.val with
    | some msg => ⟨.fatal msg, e.events ++ k.events, k.store⟩
    | none =>
      -- Load file.
      match env.Load file f with
      | .error err => ⟨.fatal err.Error, e.events ++ k.events, k.store⟩
      | .ok m =>
        let p := prepare env dir pathExists replace yes stdin k.store
        match p.val with
        | some o => ⟨o, e.events ++ k.events ++ p.events, p.store⟩
        | none =>
          -- Import data.
          let c := env.Create dir m p.store
          let o : Outcome :=
            match c.1 with
            | some err => .fatal err.Error
            | none => .returned
          ⟨o, e.events ++ k.events ++ p.events ++ [Event.Create dir m], c.2⟩

/-! ## `importCommandFunc` (lines 82-112) -/

/-- The part of `cli.Context` the command reads: the positional arguments and the
flags `format`, `replace` and `yes`. -/
structure Context where
  Args : List String
  format : String
  replace : Bool
  yes : Bool
  deriving DecidableEq, Repr

/-- What `importCommandFunc` ends with: a `log.Fatal`, or the call of `importFunc`
at line 111 with these arguments. -/
inductive Call where
  | fatal (msg : String)
  | importFunc (dir file : String) (f : DataFmt) (replace yes : Bool)
  deriving DecidableEq, Repr

/-- The function `importCommandFunc` (lines 82-112) up to its last call.
`Format` is `iodatafmt.Format`. -/
def importCommandFunc (c : Context) (Format : String → Except GoError DataFmt) : Call :=
  match c.Args with
  | [] => .fatal "You need to specify directory"
  | arg0 :: args =>
    -- Remove trailing slash.
    let dir := if arg0 ≠ "/" then TrimRight arg0 "/" else arg0
    match args with
    | [] => .fatal "You need to specify input file"
    | input :: _ =>
      -- Get data format.
      match Format c.format with
      | .error err => .fatal err.Error
      | .ok f => .importFunc dir input f c.replace c.yes

/-! ## Vocabulary of the statements -/

/-- The reply to the query of `dirExists` (line 36) and the store it leaves. -/
def firstQuery {σ δ : Type} (env : Env σ δ) (dir : String) (s : σ) : Reply × σ :=
  env.ki.Get Ctx.commandTimeout dir getOptions s

/-- The reply to the query of `isDir` (line 49), made after the first one. -/
def secondQuery {σ δ : Type} (env : Env σ δ) (dir : String) (s : σ) : Reply × σ :=
  env.ki.Get Ctx.commandTimeout dir getOptions (firstQuery env dir s).2

/-- The destination exists as a directory: both queries succeed and the node read
by `isDir` is a directory. -/
def ExistsAsDirectory {σ δ : Type} (env : Env σ δ) (dir : String) (s : σ) : Prop :=
  ∃ r1 r2, (firstQuery env dir s).1 = Reply.ok r1 ∧ (secondQuery env dir s).1 = Reply.ok r2 ∧
    r2.Node.Dir = true

/-- The destination exists as a leaf: both queries succeed and the node read by
`isDir` is not a directory. -/
def ExistsAsLeaf {σ δ : Type} (env : Env σ δ) (dir : String) (s : σ) : Prop :=
  ∃ r1 r2, (firstQuery env dir s).1 = Reply.ok r1 ∧ (secondQuery env dir s).1 = Reply.ok r2 ∧
    r2.Node.Dir = false

/-- The destination is not found: the query fails with a `client.Error` of code 100. -/
def NotFound {σ δ : Type} (env : Env σ δ) (dir : String) (s : σ) : Prop :=
  ∃ text, (firstQuery env dir s).1 = Reply.err (GoError.clientError 100 text)

/-- The query event issued by `dirExists` and by `isDir`. -/
def getEvent {δ : Type} (dir : String) : Event δ :=
  Event.Get Ctx.commandTimeout dir getOptions

/-- The confirmation prompt as it appears on standard output. -/
def promptEvent {δ : Type} (dir : String) : Event δ :=
  Event.Printf (promptText (overwriteMsg dir))

/-- The operator's answer to the prompt for `dir`, as `askYesNo` reads it. -/
def operatorAnswer (dir : String) (stdin : Stdin) : Except String Bool :=
  (askYesNo (overwriteMsg dir) stdin.err stdin.lines).answer

/-- What `askYesNo` prints while it rejects the lines `pre`. -/
def rejections (msg : String) (pre : List String) : List String :=
  pre.flatMap fun inp => [promptText msg, incorrectText inp]

/-- A `Delete` issued by the command itself. -/
def Event.isDelete {δ : Type} : Event δ → Bool
  | .Delete _ _ _ => true
  | _ => false

/-- The reply to the `Delete` of line 145, issued after the two queries. -/
def deleteReply {σ δ : Type} (env : Env σ δ) (dir : String) (s : σ) : Reply × σ :=
  env.ki.Delete Ctx.TODO dir deleteOptions (secondQuery env dir s).2

/-- The reply to the `Set` of line 157, issued after the first query. -/
def setReply {σ δ : Type} (env : Env σ δ) (dir : String) (s : σ) : Reply × σ :=
  env.ki.Set Ctx.TODO dir "" setOptions (firstQuery env dir s).2

/-- A store client that answers every `Get` with `get`, every `Set` with `set` and
every `Delete` with `del`. -/
def scriptedKi (get set del : Reply) : KeysAPI Unit :=
  ⟨fun _ _ _ s => (get, s), fun _ _ _ _ s => (set, s), fun _ _ _ s => (del, s)⟩

/-- Collaborators with scripted answers; documents are strings. -/
def scriptedEnv (get set del : Reply) (load : Except GoError String)
    (create : Option GoError) : Env Unit String :=
  ⟨scriptedKi get set del, fun _ _ => load, fun _ _ s => (create, s)⟩

/-- The reply of a store that holds a directory node at `key`. -/
def dirReply (key : String) : Reply :=
  Reply.ok ⟨⟨key, true, ""⟩⟩

/-- The reply of a store that holds a leaf node at `key`. -/
def leafReply (key value : String) : Reply :=
  Reply.ok ⟨⟨key, false, value⟩⟩

/-- The reply of a store that has no node at the key: `client.Error` with code 100. -/
def notFoundReply : Reply :=
  Reply.err (GoError.clientError 100 "100: Key not found")

/-- Everything `askYesNo` prints when it is asked about `dir`. -/
def promptEvents {δ : Type} (dir : String) (stdin : Stdin) : List (Event δ) :=
  (askYesNo (overwriteMsg dir) stdin.err stdin.lines).out.map Event.Printf

/-- How the process ends after the mapper has returned `err` (lines 163-165). -/
def createOutcome (err : Option GoError) : Outcome :=
  match err with
  | some e => .fatal e.Error
  | none => .returned

/-- A store with a directory at `/app`, where every call succeeds; the file loads
as the document `doc`. -/
def appDirEnv : Env Unit String :=
  scriptedEnv (dirReply "/app") (dirReply "/app") (dirReply "/app") (.ok "doc") none

/-- A store with a leaf at `/app`. -/
def appLeafEnv : Env Unit String :=
  scriptedEnv (leafReply "/app" "v") (dirReply "/app") (dirReply "/app") (.ok "doc") none

/-- A store with a directory at `/app` whose `Delete` runs into the deadline. -/
def appDeleteFailsEnv : Env Unit String :=
  scriptedEnv (dirReply "/app") (dirReply "/app")
    (Reply.err (.other "context deadline exceeded")) (.ok "doc") none

/-- A store with no node at `/app`. -/
def appNewEnv : Env Unit String :=
  scriptedEnv notFoundReply (dirReply "/app") (dirReply "/app") (.ok "doc") none

/-- A store that cannot be reached: every call fails with an error that is not a
`client.Error`. -/
def appDownEnv : Env Unit String :=
  scriptedEnv (Reply.err (.other "client: etcd cluster is unavailable or misconfigured"))
    (Reply.err (.other "client: etcd cluster is unavailable or misconfigured"))
    (Reply.err (.other "client: etcd cluster is unavailable or misconfigured"))
    (.ok "doc") none

/-- A line of 4099 bytes that ends with `yes`: the buffer size in bytes `x`, then `yes`. -/
def longLine : String :=
  String.mk (List.replicate defaultBufSize 'x' ++ "yes".data)

/-- A standard input that holds the one line `longLine`. -/
def longLineStdin : Stdin :=
  ⟨String.mk (longLine.data ++ ['\n']), .other "EOF"⟩

/-! ## Lemmas -/

theorem ReadSlice_append (n : Nat) (input : List Char) :
    (ReadSlice n input).1 ++ (ReadSlice n input).2.2 = input := by
  induction n generalizing input with
  | zero => simp [ReadSlice]
  | succ n ih =>
    cases input with
    | nil => simp [ReadSlice]
    | cons c cs =>
      by_cases hc : c = '\n'
      · simp [ReadSlice, hc]
      · simp [ReadSlice, hc, ih cs]

theorem ReadSlice_bufferFull_length (n : Nat) (input : List Char)
    (h : (ReadSlice n input).2.1 = SliceEnd.bufferFull) :
    (ReadSlice n input).1.length = n := by
  induction n generalizing input with
  | zero => simp [ReadSlice]
  | succ n ih =>
    cases input with
    | nil => simp [ReadSlice] at h
    | cons c cs =>
      by_cases hc : c = '\n'
      · simp [ReadSlice, hc] at h
      · simp only [ReadSlice, hc, if_false] at h ⊢
        simp [ih cs h]

theorem ReadSlice_replicate (n : Nat) (c : Char) (hc : c ≠ '\n') (more : List Char) :
    ReadSlice n (List.replicate n c ++ more) = (List.replicate n c, SliceEnd.bufferFull, more) := by
  induction n with
  | zero => simp [ReadSlice]
  | succ n ih => simp [List.replicate_succ, ReadSlice, hc, ih]

theorem ReadLine_unread_lt (input line unread : List Char) (isPrefix : Bool)
    (h : ReadLine input = some (line, isPrefix, unread)) :
    unread.length < input.length := by
  have happ := ReadSlice_append defaultBufSize input
  have hlen := congrArg List.length happ
  rw [List.length_append] at hlen
  unfold ReadLine at h
  cases hend : (ReadSlice defaultBufSize input).2.1 with
  | bufferFull =>
    have hfull := ReadSlice_bufferFull_length defaultBufSize input hend
    simp only [hend] at h
    split at h
    · simp only [Option.some.injEq, Prod.mk.injEq] at h
      obtain ⟨-, -, h3⟩ := h
      rw [← h3, List.length_cons]
      have hbuf : defaultBufSize = 4096 := rfl
      omega
    · simp only [Option.some.injEq, Prod.mk.injEq] at h
      obtain ⟨-, -, h3⟩ := h
      rw [← h3]
      have hbuf : defaultBufSize = 4096 := rfl
      omega
  | delim =>
    simp only [hend] at h
    by_cases hnil : (ReadSlice defaultBufSize input).1 = []
    · simp [hnil] at h
    · have hpos : 0 < (ReadSlice defaultBufSize input).1.length := List.length_pos.2 hnil
      have h3 : unread = (ReadSlice defaultBufSize input).2.2 := by
        simp only [hnil, if_false] at h
        split at h
        · split at h
          · simp only [Option.some.injEq, Prod.mk.injEq] at h
            exact h.2.2.symm
          · simp only [Option.some.injEq, Prod.mk.injEq] at h
            exact h.2.2.symm
        · simp only [Option.some.injEq, Prod.mk.injEq] at h
          exact h.2.2.symm
      rw [h3]
      omega
  | pending =>
    simp only [hend] at h
    by_cases hnil : (ReadSlice defaultBufSize input).1 = []
    · simp [hnil] at h
    · have hpos : 0 < (ReadSlice defaultBufSize input).1.length := List.length_pos.2 hnil
      have h3 : unread = (ReadSlice defaultBufSize input).2.2 := by
        simp only [hnil, if_false] at h
        split at h
        · split at h
          · simp only [Option.some.injEq, Prod.mk.injEq] at h
            exact h.2.2.symm
          · simp only [Option.some.injEq, Prod.mk.injEq] at h
            exact h.2.2.symm
        · simp only [Option.some.injEq, Prod.mk.injEq] at h
          exact h.2.2.symm
      rw [h3]
      omega

theorem readLines_fuel (fuel : Nat) :
    ∀ (input : List Char) (fuel2 : Nat), input.length < fuel → input.length < fuel2 →
      readLines fuel input = readLines fuel2 input := by
  induction fuel with
  | zero =>
    intro input fuel2 h
    exact absurd h (Nat.not_lt_zero _)
  | succ fuel ih =>
    intro input fuel2 h h2
    cases fuel2 with
    | zero => exact absurd h2 (Nat.not_lt_zero _)
    | succ fuel2 =>
      simp only [readLines]
      cases hr : ReadLine input with
      | none => rfl
      | some r =>
        obtain ⟨line, isPrefix, unread⟩ := r
        have hlt := ReadLine_unread_lt input line unread isPrefix hr
        simp only []
        rw [ih unread fuel2 (by omega) (by omega)]

theorem readLines_step (input : List Char) :
    readLines (input.length + 1) input =
      match ReadLine input with
      | none => []
      | some (line, _, unread) => String.mk line :: readLines (unread.length + 1) unread := by
  rw [readLines]
  cases hr : ReadLine input with
  | none => rfl
  | some r =>
    obtain ⟨line, isPrefix, unread⟩ := r
    have hlt := ReadLine_unread_lt input line unread isPrefix hr
    simp only []
    rw [readLines_fuel input.length unread (unread.length + 1) hlt (Nat.lt_succ_self _)]

theorem ReadLine_full_buffer (more : List Char) :
    ReadLine (List.replicate defaultBufSize 'x' ++ more) =
      some (List.replicate defaultBufSize 'x', true, more) := by
  have hx : ('x' : Char) ≠ '\n' := by decide
  have hlast : (List.replicate defaultBufSize 'x').getLast? ≠ some '\r' := by
    rw [List.getLast?_replicate]
    simp [defaultBufSize]
  unfold ReadLine
  simp only [ReadSlice_replicate defaultBufSize 'x' hx more, if_neg hlast]


theorem filter_isMutation_printf {δ : Type} (out : List String) :
    (out.map (Event.Printf : String → Event δ)).filter Event.isMutation = [] := by
  induction out with
  | nil => rfl
  | cons a t ih => simp [List.filter, Event.isMutation]

theorem askYesNo_out_head (msg : String) (readErr : GoError) (lines : List String) :
    ∃ t, (askYesNo msg readErr lines).out = promptText msg :: t := by
  cases lines with
  | nil => exact ⟨[], rfl⟩
  | cons inp rest =>
    unfold askYesNo
    split
    · exact ⟨[], rfl⟩
    · split
      · exact ⟨[], rfl⟩
      · exact ⟨_, rfl⟩

theorem dropWhile_eq_replicate (a : Char) (l : List Char) :
    ∃ k, l = List.replicate k a ++ l.dropWhile (fun c => c == a) := by
  induction l with
  | nil => exact ⟨0, rfl⟩
  | cons b t ih =>
    by_cases hb : b = a
    · obtain ⟨k, hk⟩ := ih
      refine ⟨k + 1, ?_⟩
      subst hb
      simp only [List.dropWhile_cons, beq_self_eq_true, if_true, List.replicate_succ,
        List.cons_append]
      rw [← hk]
    · refine ⟨0, ?_⟩
      simp [List.dropWhile_cons, hb]

theorem rdropWhile_eq_replicate (a : Char) (l : List Char) :
    ∃ k, l = l.rdropWhile (fun c => c == a) ++ List.replicate k a := by
  obtain ⟨k, hk⟩ := dropWhile_eq_replicate a l.reverse
  refine ⟨k, ?_⟩
  have := congrArg List.reverse hk
  simpa [List.rdropWhile] using this

theorem getLast?_rdropWhile (a : Char) (l : List Char) :
    (l.rdropWhile (fun c => c == a)).getLast? ≠ some a := by
  intro h
  have hne : l.rdropWhile (fun c => c == a) ≠ [] := by
    intro h0
    rw [h0] at h
    simp at h
  have hlast := List.rdropWhile_last_not (fun c => c == a) l hne
  rw [List.getLast?_eq_getLast _ hne] at h
  simp at hlast h
  exact hlast h

theorem ToLower_ne_of_length (s t : String) (h : s.data.length ≠ t.data.length) :
    ToLower s ≠ t := by
  intro heq
  apply h
  rw [← heq]
  simp [ToLower]

theorem longLine_length : longLine.data.length = 4099 := by
  simp only [longLine, List.length_append, List.length_replicate]
  rfl

theorem longLineStdin_lines :
    longLineStdin.lines = [String.mk (List.replicate defaultBufSize 'x'), "yes"] := by
  have hdata : longLineStdin.input.data =
      List.replicate defaultBufSize 'x' ++ "yes\n".data := by
    simp only [longLineStdin, longLine, List.append_assoc]
    rfl
  unfold Stdin.lines
  rw [hdata, readLines_step, ReadLine_full_buffer]
  simp only []
  congr 1

theorem isAnswer_false_iff (inp : String) :
    isAnswer inp = false ↔ ToLower inp ≠ "yes" ∧ ToLower inp ≠ "no" := by
  simp [isAnswer]

theorem askYesNo_reject (msg : String) (readErr : GoError) (inp : String) (more : List String)
    (h : isAnswer inp = false) :
    askYesNo msg readErr (inp :: more) =
      ⟨(askYesNo msg readErr more).answer,
        promptText msg :: incorrectText inp :: (askYesNo msg readErr more).out⟩ := by
  obtain ⟨h1, h2⟩ := (isAnswer_false_iff inp).1 h
  rw [askYesNo]
  simp [h1, h2]

theorem askYesNo_skip (msg : String) (readErr : GoError) (pre tail : List String)
    (hpre : ∀ inp ∈ pre, isAnswer inp = false) :
    askYesNo msg readErr (pre ++ tail) =
      ⟨(askYesNo msg readErr tail).answer,
        rejections msg pre ++ (askYesNo msg readErr tail).out⟩ := by
  induction pre with
  | nil => simp [rejections]
  | cons inp pre ih =>
    have hinp : isAnswer inp = false := hpre inp (List.mem_cons_self _ _)
    have hrest : ∀ x ∈ pre, isAnswer x = false := fun x hx => hpre x (List.mem_cons_of_mem _ hx)
    rw [List.cons_append, askYesNo_reject msg readErr inp _ hinp, ih hrest]
    simp [rejections]

/-- On the results of `ReadLine`: whatever results `pre` are rejected first, `askYesNo`
prompts once more for each of them and is decided by the next result, `true`
if it lower-cases to `yes` and `false` if it lower-cases to `no`; when the
results end first the read error is fatal. -/
theorem askYesNo_first_result (msg : String) (readErr : GoError) (pre : List String)
    (hpre : ∀ inp ∈ pre, ToLower inp ≠ "yes" ∧ ToLower inp ≠ "no") :
    (∀ inp more, ToLower inp = "yes" →
      askYesNo msg readErr (pre ++ inp :: more) =
        ⟨.ok true, rejections msg pre ++ [promptText msg]⟩) ∧
    (∀ inp more, ToLower inp = "no" →
      askYesNo msg readErr (pre ++ inp :: more) =
        ⟨.ok false, rejections msg pre ++ [promptText msg]⟩) ∧
    askYesNo msg readErr pre =
      ⟨.error readErr.Error, rejections msg pre ++ [promptText msg]⟩ := by
  have hpre2 : ∀ inp ∈ pre, isAnswer inp = false :=
    fun inp h => (isAnswer_false_iff inp).2 (hpre inp h)
  refine ⟨?_, ?_, ?_⟩
  · intro inp more hinp
    rw [askYesNo_skip msg readErr pre _ hpre2, askYesNo]
    simp [hinp]
  · intro inp more hinp
    have hne : ToLower inp ≠ "yes" := by
      rw [hinp]
      decide
    rw [askYesNo_skip msg readErr pre _ hpre2, askYesNo]
    simp [hinp, hne]
  · have h := askYesNo_skip msg readErr pre [] hpre2
    rw [List.append_nil] at h
    rw [h, askYesNo]

/-! ## The confirmation prompt -/

/-- C6 at a failing input: standard input holds one line, 4096 bytes `x` followed by
`yes`, which is neither `yes` nor `no`.  `ReadLine` returns it in two pieces,
and as line 65 drops `isPrefix`, `askYesNo` rejects the first piece, takes the
second for a line and answers `true`. -/
theorem askYesNo_long_line_accepted :
    longLineStdin.input.data = longLine.data ++ ['\n'] ∧
    longLine.data = List.replicate 4096 'x' ++ ['y', 'e', 's'] ∧
    ToLower longLine ≠ "yes" ∧ ToLower longLine ≠ "no" ∧
    longLineStdin.lines = [String.mk (List.replicate 4096 'x'), "yes"] ∧
    askYesNo (overwriteMsg "/app") longLineStdin.err longLineStdin.lines =
      ⟨.ok true, [promptText (overwriteMsg "/app"),
        incorrectText (String.mk (List.replicate 4096 'x')),
        promptText (overwriteMsg "/app")]⟩ ∧
    operatorAnswer "/app" longLineStdin = .ok true := by
  have hrej : isAnswer (String.mk (List.replicate defaultBufSize 'x')) = false := by
    rw [isAnswer_false_iff]
    constructor
    · apply ToLower_ne_of_length
      simp only [List.length_replicate]
      decide
    · apply ToLower_ne_of_length
      simp only [List.length_replicate]
      decide
  have hask : askYesNo (overwriteMsg "/app") longLineStdin.err longLineStdin.lines =
      ⟨.ok true, [promptText (overwriteMsg "/app"),
        incorrectText (String.mk (List.replicate 4096 'x')),
        promptText (overwriteMsg "/app")]⟩ := by
    rw [longLineStdin_lines, askYesNo_reject _ _ _ _ hrej]
    rfl
  refine ⟨rfl, rfl, ?_, ?_, longLineStdin_lines, hask, ?_⟩
  · apply ToLower_ne_of_length
    rw [longLine_length]
    decide
  · apply ToLower_ne_of_length
    rw [longLine_length]
    decide
  · unfold operatorAnswer
    rw [hask]

/-! ## The destination path -/

/-- C7: when `importCommandFunc` calls `importFunc`, the path it passes is `/` or
does not end with a slash; it is the first argument without a run of trailing
slashes, and the argument `/` is passed as it is. -/
theorem importCommandFunc_dir_normalised (c : Context)
    (Format : String → Except GoError DataFmt) (dir file : String) (f : DataFmt)
    (replace yes : Bool)
    (h : importCommandFunc c Format = Call.importFunc dir file f replace yes) :
    (dir = "/" ∨ dir.data.getLast? ≠ some '/') ∧
    ∃ arg0 args k, c.Args = arg0 :: args ∧ arg0.data = dir.data ++ List.replicate k '/' ∧
      (arg0 = "/" → dir = "/") := by
  unfold importCommandFunc at h
  cases hargs : c.Args with
  | nil => simp [hargs] at h
  | cons arg0 args =>
    cases args with
    | nil => simp [hargs] at h
    | cons input more =>
      cases hf : Format c.format with
      | error err => simp [hargs, hf] at h
      | ok f0 =>
        simp only [hargs, hf, Call.importFunc.injEq] at h
        obtain ⟨hdir, -, -, -, -⟩ := h
        have hcut : (fun c => "/".data.contains c) = fun c => c == '/' := by
          funext c
          cases hc : c == '/' <;> simp [List.contains, List.elem, hc]
        by_cases h0 : arg0 = "/"
        · rw [if_neg (not_not.2 h0)] at hdir
          subst hdir
          exact ⟨Or.inl h0, arg0, input :: more, 0, rfl, by simp, fun _ => h0⟩
        · rw [if_pos h0] at hdir
          subst hdir
          refine ⟨Or.inr ?_, arg0, input :: more, ?_⟩
          · simp only [TrimRight, hcut]
            exact getLast?_rdropWhile '/' arg0.data
          · obtain ⟨k, hk⟩ := rdropWhile_eq_replicate '/' arg0.data
            refine ⟨k, rfl, ?_, fun hc => absurd hc h0⟩
            simp only [TrimRight, hcut]
            exact hk

theorem importCommandFunc_dir_normalised_witness :
    importCommandFunc ⟨["/app/config///", "doc.json"], "JSON", true, false⟩
        (fun _ => .ok DataFmt.JSON) =
      Call.importFunc "/app/config" "doc.json" DataFmt.JSON true false ∧
    (("/app/config" = "/" ∨ "/app/config".data.getLast? ≠ some '/') ∧
      ∃ arg0 args k,
        (⟨["/app/config///", "doc.json"], "JSON", true, false⟩ : Context).Args = arg0 :: args ∧
        arg0.data = "/app/config".data ++ List.replicate k '/' ∧
        (arg0 = "/" → "/app/config" = "/")) :=
  ⟨by decide,
    importCommandFunc_dir_normalised ⟨["/app/config///", "doc.json"], "JSON", true, false⟩
      (fun _ => .ok DataFmt.JSON) "/app/config" "doc.json" DataFmt.JSON true false (by decide)⟩

/-! ## `importFunc` by classification -/

theorem importFunc_directory {σ δ : Type} (env : Env σ δ) (dir file : String) (f : DataFmt)
    (replace yes : Bool) (stdin : Stdin) (s : σ) (hdir : ExistsAsDirectory env dir s) :
    importFunc env dir file f replace yes stdin s =
      match env.Load file f with
      | .error err => ⟨.fatal err.Error, [getEvent dir, getEvent dir], (secondQuery env dir s).2⟩
      | .ok m =>
        match (prepare env dir true replace yes stdin (secondQuery env dir s).2).val with
        | some o =>
          ⟨o, [getEvent dir, getEvent dir] ++
              (prepare env dir true replace yes stdin (secondQuery env dir s).2).events,
            (prepare env dir true replace yes stdin (secondQuery env dir s).2).store⟩
        | none =>
          ⟨match (env.Create dir m
                (prepare env dir true replace yes stdin (secondQuery env dir s).2).store).1 with
            | some err => .fatal err.Error
            | none => .returned,
            [getEvent dir, getEvent dir] ++
              (prepare env dir true replace yes stdin (secondQuery env dir s).2).events ++
              [Event.Create dir m],
            (env.Create dir m
              (prepare env dir true replace yes stdin (secondQuery env dir s).2).store).2⟩ := by
  obtain ⟨r1, r2, h1, h2, h3⟩ := hdir
  unfold firstQuery at h1
  unfold secondQuery firstQuery at h2
  unfold importFunc
  simp only [dirExists, checkIsDir, isDir, h1, h2, h3, if_true, secondQuery, firstQuery,
    getEvent]
  cases env.Load file f with
  | error err => rfl
  | ok m =>
    simp only []
    cases (prepare env dir true replace yes stdin
      (env.ki.Get Ctx.commandTimeout dir getOptions
        (env.ki.Get Ctx.commandTimeout dir getOptions s).2).2).val with
    | some o => rfl
    | none => rfl

theorem importFunc_directory_replace {σ δ : Type} (env : Env σ δ) (dir file : String)
    (f : DataFmt) (yes : Bool) (stdin : Stdin) (s : σ) (m : δ)
    (hdir : ExistsAsDirectory env dir s) (hload : env.Load file f = .ok m) :
    importFunc env dir file f true yes stdin s =
      match operatorAnswer dir stdin with
      | .error msg =>
        ⟨.fatal msg, [getEvent dir, getEvent dir] ++ promptEvents dir stdin,
          (secondQuery env dir s).2⟩
      | .ok false =>
        ⟨.exit 1, [getEvent dir, getEvent dir] ++ promptEvents dir stdin,
          (secondQuery env dir s).2⟩
      | .ok true =>
        match (deleteReply env dir s).1 with
        | .err e =>
          ⟨.fatal e.Error, [getEvent dir, getEvent dir] ++ promptEvents dir stdin ++
              [Event.Delete Ctx.TODO dir deleteOptions], (deleteReply env dir s).2⟩
        | .ok _ =>
          ⟨createOutcome (env.Create dir m (deleteReply env dir s).2).1,
            [getEvent dir, getEvent dir] ++ promptEvents dir stdin ++
              [Event.Delete Ctx.TODO dir deleteOptions] ++ [Event.Create dir m],
            (env.Create dir m (deleteReply env dir s).2).2⟩ := by
  rw [importFunc_directory env dir file f true yes stdin s hdir, hload]
  simp only [prepare, if_true, confirm, operatorAnswer, promptEvents, deleteReply]
  cases hans : (askYesNo (overwriteMsg dir) stdin.err stdin.lines).answer with
  | error msg => rfl
  | ok b =>
    cases b with
    | false => rfl
    | true =>
      simp only []
      cases hdel : (env.ki.Delete Ctx.TODO dir deleteOptions (secondQuery env dir s).2).1 with
      | err e => rfl
      | ok r => rfl

theorem importFunc_directory_merge_ask {σ δ : Type} (env : Env σ δ) (dir file : String)
    (f : DataFmt) (stdin : Stdin) (s : σ) (m : δ)
    (hdir : ExistsAsDirectory env dir s) (hload : env.Load file f = .ok m) :
    importFunc env dir file f false false stdin s =
      match operatorAnswer dir stdin with
      | .error msg =>
        ⟨.fatal msg, [getEvent dir, getEvent dir] ++ promptEvents dir stdin,
          (secondQuery env dir s).2⟩
      | .ok false =>
        ⟨.exit 1, [getEvent dir, getEvent dir] ++ promptEvents dir stdin,
          (secondQuery env dir s).2⟩
      | .ok true =>
        ⟨createOutcome (env.Create dir m (secondQuery env dir s).2).1,
          [getEvent dir, getEvent dir] ++ promptEvents dir stdin ++ [Event.Create dir m],
          (env.Create dir m (secondQuery env dir s).2).2⟩ := by
  rw [importFunc_directory env dir file f false false stdin s hdir, hload]
  simp only [prepare, if_true, confirm, operatorAnswer, promptEvents, Bool.not_false]
  cases hans : (askYesNo (overwriteMsg dir) stdin.err stdin.lines).answer with
  | error msg => rfl
  | ok b =>
    cases b with
    | false => rfl
    | true => rfl

theorem importFunc_directory_merge_yes {σ δ : Type} (env : Env σ δ) (dir file : String)
    (f : DataFmt) (stdin : Stdin) (s : σ) (m : δ)
    (hdir : ExistsAsDirectory env dir s) (hload : env.Load file f = .ok m) :
    importFunc env dir file f false true stdin s =
      ⟨createOutcome (env.Create dir m (secondQuery env dir s).2).1,
        [getEvent dir, getEvent dir] ++ [Event.Create dir m],
        (env.Create dir m (secondQuery env dir s).2).2⟩ := by
  rw [importFunc_directory env dir file f false true stdin s hdir, hload]
  rfl

theorem importFunc_directory_load_error {σ δ : Type} (env : Env σ δ) (dir file : String)
    (f : DataFmt) (replace yes : Bool) (stdin : Stdin) (s : σ) (err : GoError)
    (hdir : ExistsAsDirectory env dir s) (hload : env.Load file f = .error err) :
    importFunc env dir file f replace yes stdin s =
      ⟨.fatal err.Error, [getEvent dir, getEvent dir], (secondQuery env dir s).2⟩ := by
  rw [importFunc_directory env dir file f replace yes stdin s hdir, hload]

theorem filter_isMutation_promptEvents {δ : Type} (dir : String) (stdin : Stdin) :
    (promptEvents dir stdin : List (Event δ)).filter Event.isMutation = [] :=
  filter_isMutation_printf _

theorem promptEvent_mem_promptEvents {δ : Type} (dir : String) (stdin : Stdin) :
    (promptEvent dir : Event δ) ∈ promptEvents dir stdin := by
  obtain ⟨t, ht⟩ := askYesNo_out_head (overwriteMsg dir) stdin.err stdin.lines
  simp [promptEvents, ht, promptEvent]

theorem importFunc_not_found {σ δ : Type} (env : Env σ δ) (dir file : String)
    (f : DataFmt) (replace yes : Bool) (stdin : Stdin) (s : σ)
    (hnf : NotFound env dir s) :
    importFunc env dir file f replace yes stdin s =
      match env.Load file f with
      | .error err => ⟨.fatal err.Error, [getEvent dir], (firstQuery env dir s).2⟩
      | .ok m =>
        match (setReply env dir s).1 with
        | .err e =>
          ⟨.fatal e.Error, [getEvent dir, Event.Set Ctx.TODO dir "" setOptions],
            (setReply env dir s).2⟩
        | .ok _ =>
          ⟨createOutcome (env.Create dir m (setReply env dir s).2).1,
            [getEvent dir, Event.Set Ctx.TODO dir "" setOptions, Event.Create dir m],
            (env.Create dir m (setReply env dir s).2).2⟩ := by
  obtain ⟨text, h1⟩ := hnf
  unfold firstQuery at h1
  unfold importFunc
  simp only [dirExists, checkIsDir, h1, if_true, firstQuery, getEvent, setReply]
  cases env.Load file f with
  | error err => rfl
  | ok m =>
    simp only [prepare]
    cases hset : (env.ki.Set Ctx.TODO dir "" setOptions
        (env.ki.Get Ctx.commandTimeout dir getOptions s).2).1 with
    | err e => simp [hset]
    | ok r => simp [hset, createOutcome]

theorem importFunc_query_error {σ δ : Type} (env : Env σ δ) (dir file : String)
    (f : DataFmt) (replace yes : Bool) (stdin : Stdin) (s : σ) (e : GoError)
    (h1 : (firstQuery env dir s).1 = Reply.err e)
    (hcode : ∀ text, e ≠ GoError.clientError 100 text) :
    importFunc env dir file f replace yes stdin s =
      ⟨.fatal (doesNotExistMsg dir), [getEvent dir], (firstQuery env dir s).2⟩ := by
  unfold firstQuery at h1
  unfold importFunc
  cases e with
  | other text => simp only [dirExists, h1, firstQuery, getEvent]
  | clientError Code text =>
    have hne : Code ≠ 100 := by
      intro hc
      exact hcode text (by rw [hc])
    simp only [dirExists, h1, firstQuery, getEvent, if_neg hne]

theorem importFunc_second_query_error {σ δ : Type} (env : Env σ δ) (dir file : String)
    (f : DataFmt) (replace yes : Bool) (stdin : Stdin) (s : σ) (r1 : Response) (e : GoError)
    (h1 : (firstQuery env dir s).1 = Reply.ok r1)
    (h2 : (secondQuery env dir s).1 = Reply.err e) :
    importFunc env dir file f replace yes stdin s =
      ⟨.fatal e.Error, [getEvent dir, getEvent dir], (secondQuery env dir s).2⟩ := by
  unfold firstQuery at h1
  unfold secondQuery firstQuery at h2
  unfold importFunc
  simp only [dirExists, checkIsDir, isDir, h1, h2, if_true, secondQuery, firstQuery,
    getEvent]
  rfl

theorem filter_isGet_promptEvents {δ : Type} (dir : String) (stdin : Stdin) :
    (promptEvents dir stdin : List (Event δ)).filter Event.isGet = [] := by
  simp [promptEvents, List.filter_eq_nil_iff, Event.isGet]

theorem importFunc_leaf {σ δ : Type} (env : Env σ δ) (dir file : String)
    (f : DataFmt) (replace yes : Bool) (stdin : Stdin) (s : σ)
    (hleaf : ExistsAsLeaf env dir s) :
    importFunc env dir file f replace yes stdin s =
      ⟨Outcome.fatal notADirectoryMsg, [getEvent dir, getEvent dir],
        (secondQuery env dir s).2⟩ := by
  obtain ⟨r1, r2, h1, h2, h3⟩ := hleaf
  unfold firstQuery at h1
  unfold secondQuery firstQuery at h2
  unfold importFunc
  simp only [dirExists, checkIsDir, isDir, h1, h2, h3, if_true, secondQuery, firstQuery,
    getEvent]
  rfl

/-! ## Refusal and leaf destinations -/

/-- C1: when the destination exists as a directory, the confirmation prompt is shown
and the operator answers `no`, then, whatever the flags and the input file,
`importFunc` issues no `Set`, no `Delete` and no mapper call, and the process
ends with `os.Exit(1)`. -/
theorem importFunc_decline_no_mutation {σ δ : Type} (env : Env σ δ) (dir file : String)
    (f : DataFmt) (replace yes : Bool) (stdin : Stdin) (s : σ)
    (hdir : ExistsAsDirectory env dir s)
    (hasked : promptEvent dir ∈ (importFunc env dir file f replace yes stdin s).events)
    (hno : operatorAnswer dir stdin = .ok false) :
    (importFunc env dir file f replace yes stdin s).events.filter Event.isMutation = [] ∧
    (importFunc env dir file f replace yes stdin s).val = Outcome.exit 1 ∧
    (importFunc env dir file f replace yes stdin s).val.status = 1 := by
  have hmut := filter_isMutation_promptEvents (δ := δ) dir stdin
  cases hload : env.Load file f with
  | error err =>
    rw [importFunc_directory_load_error env dir file f replace yes stdin s err hdir hload]
      at hasked
    simp [promptEvent, getEvent] at hasked
  | ok m =>
    cases replace with
    | true =>
      rw [importFunc_directory_replace env dir file f yes stdin s m hdir hload, hno]
      simp [List.filter_append, hmut, getEvent, Event.isMutation, Outcome.status]
    | false =>
      cases yes with
      | false =>
        rw [importFunc_directory_merge_ask env dir file f stdin s m hdir hload, hno]
        simp [List.filter_append, hmut, getEvent, Event.isMutation, Outcome.status]
      | true =>
        rw [importFunc_directory_merge_yes env dir file f stdin s m hdir hload] at hasked
        simp [promptEvent, getEvent] at hasked

theorem importFunc_decline_no_mutation_witness :
    ExistsAsDirectory appDirEnv "/app" () ∧
    promptEvent "/app" ∈
      (importFunc appDirEnv "/app" "doc.json" DataFmt.JSON true true
        ⟨"maybe\nNo\nyes\n", .other "EOF"⟩ ()).events ∧
    operatorAnswer "/app" ⟨"maybe\nNo\nyes\n", .other "EOF"⟩ = .ok false ∧
    ((importFunc appDirEnv "/app" "doc.json" DataFmt.JSON true true
        ⟨"maybe\nNo\nyes\n", .other "EOF"⟩ ()).events.filter Event.isMutation = [] ∧
      (importFunc appDirEnv "/app" "doc.json" DataFmt.JSON true true
        ⟨"maybe\nNo\nyes\n", .other "EOF"⟩ ()).val = Outcome.exit 1 ∧
      (importFunc appDirEnv "/app" "doc.json" DataFmt.JSON true true
        ⟨"maybe\nNo\nyes\n", .other "EOF"⟩ ()).val.status = 1) :=
  ⟨⟨_, _, rfl, rfl, rfl⟩, by decide, rfl,
    importFunc_decline_no_mutation appDirEnv "/app" "doc.json" DataFmt.JSON true true
      ⟨"maybe\nNo\nyes\n", .other "EOF"⟩ () ⟨_, _, rfl, rfl, rfl⟩ (by decide) rfl⟩

/-- C2: when the destination exists as a leaf, then, whatever the flags, the input
file and the input of the operator, `importFunc` ends with a `log.Fatal` (exit
status 1) after its two queries, having issued no `Set`, no `Delete` and no
mapper call. -/
theorem importFunc_leaf_fatal {σ δ : Type} (env : Env σ δ) (dir file : String)
    (f : DataFmt) (replace yes : Bool) (stdin : Stdin) (s : σ)
    (hleaf : ExistsAsLeaf env dir s) :
    (importFunc env dir file f replace yes stdin s).val = Outcome.fatal notADirectoryMsg ∧
    (importFunc env dir file f replace yes stdin s).val.status = 1 ∧
    (importFunc env dir file f replace yes stdin s).events = [getEvent dir, getEvent dir] ∧
    (importFunc env dir file f replace yes stdin s).events.filter Event.isMutation = [] := by
  rw [importFunc_leaf env dir file f replace yes stdin s hleaf]
  simp [Outcome.status, getEvent, Event.isMutation]

theorem importFunc_leaf_fatal_witness :
    ExistsAsLeaf appLeafEnv "/app" () ∧
    ((importFunc appLeafEnv "/app" "doc.json" DataFmt.JSON true true
        ⟨"yes\n", .other "EOF"⟩ ()).val = Outcome.fatal notADirectoryMsg ∧
      (importFunc appLeafEnv "/app" "doc.json" DataFmt.JSON true true
        ⟨"yes\n", .other "EOF"⟩ ()).val.status = 1 ∧
      (importFunc appLeafEnv "/app" "doc.json" DataFmt.JSON true true
        ⟨"yes\n", .other "EOF"⟩ ()).events = [getEvent "/app", getEvent "/app"] ∧
      (importFunc appLeafEnv "/app" "doc.json" DataFmt.JSON true true
        ⟨"yes\n", .other "EOF"⟩ ()).events.filter Event.isMutation = []) :=
  ⟨⟨_, _, rfl, rfl, rfl⟩,
    importFunc_leaf_fatal appLeafEnv "/app" "doc.json" DataFmt.JSON true true
      ⟨"yes\n", .other "EOF"⟩ () ⟨_, _, rfl, rfl, rfl⟩⟩

/-! ## Replace, merge and create -/

/-- C3, as the code has it: when the destination exists as a directory, `replace` is
set and the file has loaded, `importFunc` shows the confirmation prompt whatever
the flag `yes`; when the answer is `yes` the mutations it issues are one
recursive `Delete` of the destination and then, if that `Delete` succeeded, the
mapper on the loaded document at the destination, after which the process ends
as the mapper decides; when the `Delete` failed it is the only mutation issued
and the process ends with a `log.Fatal` of the error of the `Delete`. -/
theorem importFunc_replace_confirms {σ δ : Type} (env : Env σ δ) (dir file : String)
    (f : DataFmt) (yes : Bool) (stdin : Stdin) (s : σ) (m : δ)
    (hdir : ExistsAsDirectory env dir s) (hload : env.Load file f = .ok m) :
    promptEvent dir ∈ (importFunc env dir file f true yes stdin s).events ∧
    (operatorAnswer dir stdin = .ok true →
      (importFunc env dir file f true yes stdin s).events.filter Event.isMutation =
        (Event.Delete Ctx.TODO dir ⟨true⟩ ::
          match (deleteReply env dir s).1 with
          | .ok _ => [Event.Create dir m]
          | .err _ => []) ∧
      (importFunc env dir file f true yes stdin s).val =
        (match (deleteReply env dir s).1 with
          | .ok _ => createOutcome (env.Create dir m (deleteReply env dir s).2).1
          | .err e => Outcome.fatal e.Error) ∧
      (importFunc env dir file f true yes stdin s).val.status =
        (match (deleteReply env dir s).1 with
          | .ok _ => (createOutcome (env.Create dir m (deleteReply env dir s).2).1).status
          | .err _ => 1)) := by
  have hmut := filter_isMutation_promptEvents (δ := δ) dir stdin
  have hmem := promptEvent_mem_promptEvents (δ := δ) dir stdin
  rw [importFunc_directory_replace env dir file f yes stdin s m hdir hload]
  constructor
  · cases hans : operatorAnswer dir stdin with
    | error msg => simp [hmem]
    | ok b =>
      cases b with
      | false => simp [hmem]
      | true =>
        cases hdel : (deleteReply env dir s).1 with
        | err e => simp [hmem]
        | ok r => simp [hmem]
  · intro hyes
    rw [hyes]
    cases hdel : (deleteReply env dir s).1 with
    | err e =>
      simp [List.filter_append, hmut, getEvent, Event.isMutation, deleteOptions,
        Outcome.status]
    | ok r =>
      simp [List.filter_append, hmut, getEvent, Event.isMutation, deleteOptions]

theorem importFunc_replace_confirms_witness :
    ExistsAsDirectory appDirEnv "/app" () ∧
    appDirEnv.Load "doc.json" DataFmt.JSON = .ok "doc" ∧
    operatorAnswer "/app" ⟨"y\nYES\n", .other "EOF"⟩ = .ok true ∧
    promptEvent "/app" ∈
      (importFunc appDirEnv "/app" "doc.json" DataFmt.JSON true true
        ⟨"y\nYES\n", .other "EOF"⟩ ()).events ∧
    ((importFunc appDirEnv "/app" "doc.json" DataFmt.JSON true true
        ⟨"y\nYES\n", .other "EOF"⟩ ()).events.filter Event.isMutation =
        [Event.Delete Ctx.TODO "/app" ⟨true⟩, Event.Create "/app" "doc"] ∧
      (importFunc appDirEnv "/app" "doc.json" DataFmt.JSON true true
        ⟨"y\nYES\n", .other "EOF"⟩ ()).val = Outcome.returned ∧
      (importFunc appDirEnv "/app" "doc.json" DataFmt.JSON true true
        ⟨"y\nYES\n", .other "EOF"⟩ ()).val.status = 0) ∧
    ExistsAsDirectory appDeleteFailsEnv "/app" () ∧
    appDeleteFailsEnv.Load "doc.json" DataFmt.JSON = .ok "doc" ∧
    ((importFunc appDeleteFailsEnv "/app" "doc.json" DataFmt.JSON true true
        ⟨"y\nYES\n", .other "EOF"⟩ ()).events.filter Event.isMutation =
        [Event.Delete Ctx.TODO "/app" ⟨true⟩] ∧
      (importFunc appDeleteFailsEnv "/app" "doc.json" DataFmt.JSON true true
        ⟨"y\nYES\n", .other "EOF"⟩ ()).val = Outcome.fatal "context deadline exceeded" ∧
      (importFunc appDeleteFailsEnv "/app" "doc.json" DataFmt.JSON true true
        ⟨"y\nYES\n", .other "EOF"⟩ ()).val.status = 1) :=
  ⟨⟨_, _, rfl, rfl, rfl⟩, rfl, rfl,
    (importFunc_replace_confirms appDirEnv "/app" "doc.json" DataFmt.JSON true
      ⟨"y\nYES\n", .other "EOF"⟩ () "doc" ⟨_, _, rfl, rfl, rfl⟩ rfl).1,
    (importFunc_replace_confirms appDirEnv "/app" "doc.json" DataFmt.JSON true
      ⟨"y\nYES\n", .other "EOF"⟩ () "doc" ⟨_, _, rfl, rfl, rfl⟩ rfl).2 rfl,
    ⟨_, _, rfl, rfl, rfl⟩, rfl,
    (importFunc_replace_confirms appDeleteFailsEnv "/app" "doc.json" DataFmt.JSON true
      ⟨"y\nYES\n", .other "EOF"⟩ () "doc" ⟨_, _, rfl, rfl, rfl⟩ rfl).2 rfl⟩

/-- C3 as stated fails when the `Delete` fails: the destination is a directory,
`replace` is set, the document loads and the operator answers `yes`, yet the
only mutation issued is the `Delete`; the mapper is never called. -/
theorem importFunc_replace_delete_fails :
    ExistsAsDirectory appDeleteFailsEnv "/app" () ∧
    operatorAnswer "/app" ⟨"yes\n", .other "EOF"⟩ = .ok true ∧
    (importFunc appDeleteFailsEnv
        "/app" "doc.json" DataFmt.JSON true false
        ⟨"yes\n", .other "EOF"⟩ ()).events.filter Event.isMutation =
      [Event.Delete Ctx.TODO "/app" ⟨true⟩] ∧
    (importFunc appDeleteFailsEnv
        "/app" "doc.json" DataFmt.JSON true false
        ⟨"yes\n", .other "EOF"⟩ ()).events.filter Event.isMutation ≠
      [Event.Delete Ctx.TODO "/app" ⟨true⟩, Event.Create "/app" "doc"] ∧
    (importFunc appDeleteFailsEnv
        "/app" "doc.json" DataFmt.JSON true false
        ⟨"yes\n", .other "EOF"⟩ ()).val = Outcome.fatal "context deadline exceeded" :=
  ⟨⟨_, _, rfl, rfl, rfl⟩, rfl, by decide, by decide, by decide⟩

/-- C4: when the destination exists as a directory, `replace` is not set and the
file has loaded, the confirmation prompt is shown exactly when `yes` is not set;
`importFunc` itself issues no `Set` and no `Delete`; and when the import
proceeds (`yes` is set or the operator answers `yes`) the only mutation is the
mapper on the loaded document at the destination, while no mutation at all is
issued otherwise. -/
theorem importFunc_merge_never_deletes {σ δ : Type} (env : Env σ δ) (dir file : String)
    (f : DataFmt) (yes : Bool) (stdin : Stdin) (s : σ) (m : δ)
    (hdir : ExistsAsDirectory env dir s) (hload : env.Load file f = .ok m) :
    (promptEvent dir ∈ (importFunc env dir file f false yes stdin s).events ↔ yes = false) ∧
    (importFunc env dir file f false yes stdin s).events.filter Event.isSetOrDelete = [] ∧
    (yes = true ∨ operatorAnswer dir stdin = .ok true →
      (importFunc env dir file f false yes stdin s).events.filter Event.isMutation =
        [Event.Create dir m]) ∧
    (¬ (yes = true ∨ operatorAnswer dir stdin = .ok true) →
      (importFunc env dir file f false yes stdin s).events.filter Event.isMutation = []) := by
  have hmut := filter_isMutation_promptEvents (δ := δ) dir stdin
  have hmem := promptEvent_mem_promptEvents (δ := δ) dir stdin
  have hsd : (promptEvents dir stdin : List (Event δ)).filter Event.isSetOrDelete = [] := by
    simp [promptEvents, List.filter_eq_nil_iff, Event.isSetOrDelete]
  cases yes with
  | true =>
    rw [importFunc_directory_merge_yes env dir file f stdin s m hdir hload]
    simp [promptEvent, getEvent, Event.isSetOrDelete, Event.isMutation]
  | false =>
    rw [importFunc_directory_merge_ask env dir file f stdin s m hdir hload]
    cases hans : operatorAnswer dir stdin with
    | error msg =>
      simp [hmem, List.filter_append, hmut, hsd, getEvent, Event.isSetOrDelete,
        Event.isMutation]
    | ok b =>
      cases b with
      | false =>
        simp [hmem, List.filter_append, hmut, hsd, getEvent, Event.isSetOrDelete,
          Event.isMutation]
      | true =>
        simp [hmem, List.filter_append, hmut, hsd, getEvent, Event.isSetOrDelete,
          Event.isMutation]

theorem importFunc_merge_never_deletes_witness :
    ExistsAsDirectory appDirEnv "/app" () ∧
    appDirEnv.Load "doc.json" DataFmt.JSON = .ok "doc" ∧
    operatorAnswer "/app" ⟨"yes\n", .other "EOF"⟩ = .ok true ∧
    (promptEvent "/app" ∈
      (importFunc appDirEnv "/app" "doc.json" DataFmt.JSON false false
        ⟨"yes\n", .other "EOF"⟩ ()).events ↔ false = false) ∧
    (importFunc appDirEnv "/app" "doc.json" DataFmt.JSON false false
      ⟨"yes\n", .other "EOF"⟩ ()).events.filter Event.isSetOrDelete = [] ∧
    (importFunc appDirEnv "/app" "doc.json" DataFmt.JSON false false
      ⟨"yes\n", .other "EOF"⟩ ()).events.filter Event.isMutation =
        [Event.Create "/app" "doc"] :=
  ⟨⟨_, _, rfl, rfl, rfl⟩, rfl, rfl,
    (importFunc_merge_never_deletes appDirEnv "/app" "doc.json" DataFmt.JSON false
      ⟨"yes\n", .other "EOF"⟩ () "doc" ⟨_, _, rfl, rfl, rfl⟩ rfl).1,
    (importFunc_merge_never_deletes appDirEnv "/app" "doc.json" DataFmt.JSON false
      ⟨"yes\n", .other "EOF"⟩ () "doc" ⟨_, _, rfl, rfl, rfl⟩ rfl).2.1,
    (importFunc_merge_never_deletes appDirEnv "/app" "doc.json" DataFmt.JSON false
      ⟨"yes\n", .other "EOF"⟩ () "doc" ⟨_, _, rfl, rfl, rfl⟩ rfl).2.2.1 (Or.inr rfl)⟩

/-- C5: when the query of the destination fails with the not-found code 100, then,
whatever the flags and the input of the operator, `importFunc` prints no
prompt and issues no `Delete`; and once the file has loaded it issues, after
the query, the `Set` of the destination with the empty value and `Dir = true`,
followed by the mapper on the loaded document at the destination exactly when
that `Set` succeeded. -/
theorem importFunc_not_found_creates {σ δ : Type} (env : Env σ δ) (dir file : String)
    (f : DataFmt) (replace yes : Bool) (stdin : Stdin) (s : σ)
    (hnf : NotFound env dir s) :
    (importFunc env dir file f replace yes stdin s).events.filter Event.isPrintf = [] ∧
    (importFunc env dir file f replace yes stdin s).events.filter Event.isDelete = [] ∧
    ∀ m, env.Load file f = .ok m →
      (importFunc env dir file f replace yes stdin s).events =
        getEvent dir :: Event.Set Ctx.TODO dir "" ⟨true⟩ ::
          match (setReply env dir s).1 with
          | .ok _ => [Event.Create dir m]
          | .err _ => [] := by
  rw [importFunc_not_found env dir file f replace yes stdin s hnf]
  cases hload : env.Load file f with
  | error err =>
    simp [getEvent, Event.isPrintf, Event.isDelete]
  | ok m =>
    cases hset : (setReply env dir s).1 with
    | err e => simp [getEvent, Event.isPrintf, Event.isDelete, setOptions]
    | ok r => simp [getEvent, Event.isPrintf, Event.isDelete, setOptions]

theorem importFunc_not_found_creates_witness :
    NotFound appNewEnv "/app" () ∧
    appNewEnv.Load "doc.json" DataFmt.JSON = .ok "doc" ∧
    (importFunc appNewEnv "/app" "doc.json" DataFmt.JSON true false
      ⟨"no\n", .other "EOF"⟩ ()).events.filter Event.isPrintf = [] ∧
    (importFunc appNewEnv "/app" "doc.json" DataFmt.JSON true false
      ⟨"no\n", .other "EOF"⟩ ()).events.filter Event.isDelete = [] ∧
    (importFunc appNewEnv "/app" "doc.json" DataFmt.JSON true false
      ⟨"no\n", .other "EOF"⟩ ()).events =
        [getEvent "/app", Event.Set Ctx.TODO "/app" "" ⟨true⟩, Event.Create "/app" "doc"] :=
  ⟨⟨_, rfl⟩, rfl,
    (importFunc_not_found_creates appNewEnv "/app" "doc.json" DataFmt.JSON true false
      ⟨"no\n", .other "EOF"⟩ () ⟨_, rfl⟩).1,
    (importFunc_not_found_creates appNewEnv "/app" "doc.json" DataFmt.JSON true false
      ⟨"no\n", .other "EOF"⟩ () ⟨_, rfl⟩).2.1,
    (importFunc_not_found_creates appNewEnv "/app" "doc.json" DataFmt.JSON true false
      ⟨"no\n", .other "EOF"⟩ () ⟨_, rfl⟩).2.2 "doc" rfl⟩

/-! ## Queries, messages and contexts -/

/-- C8, as the code has it: `importFunc` classifies the destination with
non-recursive `Get` queries of the destination only, one (that of `dirExists`)
when this query fails, whether with the not-found code or not, and two (that of
`dirExists`, then that of `isDir`) when it succeeds. -/
theorem importFunc_classification_queries {σ δ : Type} (env : Env σ δ) (dir file : String)
    (f : DataFmt) (replace yes : Bool) (stdin : Stdin) (s : σ) :
    (importFunc env dir file f replace yes stdin s).events.filter Event.isGet =
      match (firstQuery env dir s).1 with
      | .ok _ => [Event.Get Ctx.commandTimeout dir ⟨false, false, false⟩,
          Event.Get Ctx.commandTimeout dir ⟨false, false, false⟩]
      | .err _ => [Event.Get Ctx.commandTimeout dir ⟨false, false, false⟩] := by
  have hget := filter_isGet_promptEvents (δ := δ) dir stdin
  cases h1 : (firstQuery env dir s).1 with
  | err e =>
    by_cases hcode : ∃ text, e = GoError.clientError 100 text
    · obtain ⟨text, rfl⟩ := hcode
      rw [importFunc_not_found env dir file f replace yes stdin s ⟨text, h1⟩]
      cases env.Load file f with
      | error err => simp [getEvent, Event.isGet, getOptions]
      | ok m =>
        cases (setReply env dir s).1 with
        | err e2 => simp [getEvent, Event.isGet, getOptions]
        | ok r => simp [getEvent, Event.isGet, getOptions]
    · rw [importFunc_query_error env dir file f replace yes stdin s e h1
        (fun text h => hcode ⟨text, h⟩)]
      simp [getEvent, Event.isGet, getOptions]
  | ok r1 =>
    cases h2 : (secondQuery env dir s).1 with
    | err e =>
      rw [importFunc_second_query_error env dir file f replace yes stdin s r1 e h1 h2]
      simp [getEvent, Event.isGet, getOptions]
    | ok r2 =>
      cases h3 : r2.Node.Dir with
      | false =>
        rw [importFunc_leaf env dir file f replace yes stdin s ⟨r1, r2, h1, h2, h3⟩]
        simp [getEvent, Event.isGet, getOptions]
      | true =>
        have hdir : ExistsAsDirectory env dir s := ⟨r1, r2, h1, h2, h3⟩
        cases hload : env.Load file f with
        | error err =>
          rw [importFunc_directory_load_error env dir file f replace yes stdin s err hdir
            hload]
          simp [getEvent, Event.isGet, getOptions]
        | ok m =>
          cases replace with
          | true =>
            rw [importFunc_directory_replace env dir file f yes stdin s m hdir hload]
            cases operatorAnswer dir stdin with
            | error msg => simp [List.filter_append, hget, getEvent, Event.isGet, getOptions]
            | ok b =>
              cases b with
              | false => simp [List.filter_append, hget, getEvent, Event.isGet, getOptions]
              | true =>
                cases (deleteReply env dir s).1 with
                | err e =>
                  simp [List.filter_append, hget, getEvent, Event.isGet, getOptions]
                | ok r =>
                  simp [List.filter_append, hget, getEvent, Event.isGet, getOptions]
          | false =>
            cases yes with
            | true =>
              rw [importFunc_directory_merge_yes env dir file f stdin s m hdir hload]
              simp [getEvent, Event.isGet, getOptions]
            | false =>
              rw [importFunc_directory_merge_ask env dir file f stdin s m hdir hload]
              cases operatorAnswer dir stdin with
              | error msg =>
                simp [List.filter_append, hget, getEvent, Event.isGet, getOptions]
              | ok b =>
                cases b <;>
                  simp [List.filter_append, hget, getEvent, Event.isGet, getOptions]

/-- C8 as stated fails when the destination exists: the store is queried twice. -/
theorem importFunc_queries_twice :
    ExistsAsDirectory appDirEnv "/app" () ∧
    ((importFunc appDirEnv "/app" "doc.json" DataFmt.JSON false true
      ⟨"", .other "EOF"⟩ ()).events.filter Event.isGet).length = 2 ∧
    ((importFunc appDirEnv "/app" "doc.json" DataFmt.JSON false true
      ⟨"", .other "EOF"⟩ ()).events.filter Event.isGet).length ≠ 1 :=
  ⟨⟨_, _, rfl, rfl, rfl⟩, by decide, by decide⟩

/-- C9 at a failing input: the query of the destination fails with an error other
than not-found, and the message of the `log.Fatal` is that of line 118, not
the message of the error. -/
theorem importFunc_query_failure_message :
    (firstQuery appDownEnv "/app" ()).1 =
      Reply.err (.other "client: etcd cluster is unavailable or misconfigured") ∧
    (dirExists "/app" appDownEnv.ki () : Ret Unit String (Except GoError Bool)).val =
      .error (.other "client: etcd cluster is unavailable or misconfigured") ∧
    (importFunc appDownEnv "/app" "doc.json" DataFmt.JSON false false
      ⟨"", .other "EOF"⟩ ()).val = Outcome.fatal "Specified dir doesn\x27t exist: /app" ∧
    (importFunc appDownEnv "/app" "doc.json" DataFmt.JSON false false
      ⟨"", .other "EOF"⟩ ()).val ≠
        Outcome.fatal "client: etcd cluster is unavailable or misconfigured" :=
  ⟨rfl, rfl, by decide, by decide⟩

/-- C10 at two failing inputs: the `Set` that creates a destination not found and the
`Delete` of a replaced destination are issued with `context.TODO()`, while the
queries carry the context of `contextWithCommandTimeout`. -/
theorem importFunc_set_delete_without_deadline :
    (importFunc appNewEnv "/app" "doc.json" DataFmt.JSON false false
      ⟨"", .other "EOF"⟩ ()).events =
      [Event.Get Ctx.commandTimeout "/app" ⟨false, false, false⟩,
        Event.Set Ctx.TODO "/app" "" ⟨true⟩, Event.Create "/app" "doc"] ∧
    (importFunc appDirEnv "/app" "doc.json" DataFmt.JSON true false
      ⟨"yes\n", .other "EOF"⟩ ()).events =
      [Event.Get Ctx.commandTimeout "/app" ⟨false, false, false⟩,
        Event.Get Ctx.commandTimeout "/app" ⟨false, false, false⟩,
        Event.Printf "Do you want to overwrite data in directory: /app [yes/no]? ",
        Event.Delete Ctx.TODO "/app" ⟨true⟩, Event.Create "/app" "doc"] :=
  ⟨by decide, by decide⟩

end Etcdtool
